import Mathlib

/-!
# Graceful shutdown protocol of `application.serve` (cmd/api/server.go)

`serve` runs two threads of execution: the caller, which sits in
`srv.ListenAndServe()` and then reconciles the outcome, and a goroutine that
waits for SIGINT/SIGTERM, calls `srv.Shutdown` with a 30 second context,
waits on `app.wg` and talks to the caller over the unbuffered channel
`shutdownError`.

The embedding is a step function over an explicit state: one program counter
per thread, the one-slot `quit` channel, the `app.wg` counter and a global
trace of the events the two threads perform.  Everything that the source does
not decide is an input (`Env`): the value `ListenAndServe` returns, the value
`Shutdown` returns, the signals the operating system delivers, and what the
rest of the program does to `app.wg`.  A schedule is a list of actions; an
action that is not enabled in the current state leaves the state unchanged.
-/

namespace Greenlight

/-! ## Go errors and `errors.Is` -/

/-- A non-nil Go error value: either a base error, identified by a code, or an
error wrapping another one (`fmt.Errorf` with `%w`).  Two base errors are the
same value exactly when their codes agree.  Errors with an `Is` method of
their own and joined errors are not modelled. -/
inductive GoError where
  | base (code : Nat)
  | wrap (code : Nat) (inner : GoError)
deriving DecidableEq, Repr

/-- A Go `error` interface value; `none` is `nil`. -/
abbrev Error := Option GoError

/-- The sentinel `http.ErrServerClosed`. -/
def ErrServerClosed : GoError := .base 0

/-- The error `context.DeadlineExceeded`, which `Shutdown` returns when the
context expires with connections still open. -/
def DeadlineExceeded : GoError := .base 1

/-- Some listen-time fault such as "bind: address already in use". -/
def ErrAddrInUse : GoError := .base 2

/-- The chain that `errors.Is` walks: the error, then what it unwraps to. -/
def GoError.chain : GoError → List GoError
  | .base c => [.base c]
  | .wrap c inner => .wrap c inner :: inner.chain

/-- The loop of `errors.Is` on a non-nil error: compare, then unwrap. -/
def GoError.is (target : GoError) : GoError → Bool
  | .base c => decide (GoError.base c = target)
  | .wrap c inner => decide (GoError.wrap c inner = target) || GoError.is target inner

/-- Go's `errors.Is(err, target)`: when either side is nil the answer is
`err == target`, otherwise the unwrap chain of `err` is searched. -/
def errorsIs (err target : Error) : Bool :=
  match err, target with
  | some e, some t => GoError.is t e
  | none, none => true
  | _, _ => false

/-- The test of line 62, `errors.Is(err, http.ErrServerClosed)`. -/
def isServerClosed (err : Error) : Bool := errorsIs err (some ErrServerClosed)

/-! ## Inputs, events and state -/

/-- The signals registered with `signal.Notify` on line 27. -/
inductive Signal where
  | SIGINT
  | SIGTERM
deriving DecidableEq, Repr

/-- What the rest of the program does to `app.wg`. -/
inductive TaskEvent where
  | add
  | done
deriving DecidableEq, Repr

/-- One second as a `time.Duration` (nanoseconds). -/
def Second : Nat := 1000000000

/-- The timeout of the context built on line 34, `30*time.Second`. -/
def shutdownTimeout : Nat := 30 * Second

/-- The four `app.logger.PrintInfo` calls of `serve`. -/
inductive LogLine where
  | caughtSignal (s : Signal)
  | completingBackgroundTasks
  | startingServer
  | stoppedServer
deriving DecidableEq, Repr

/-- Events performed by the two threads.  `handoff v` is the rendezvous on
`shutdownError`: the goroutine's send of `v` completing together with the
receive on line 69. -/
inductive Event where
  | log (l : LogLine)
  | sigRead (s : Signal)
  | shutdownCall (timeout : Nat)
  | shutdownRet (err : Error)
  | waitCall
  | waitRet
  | listenRet (err : Error)
  | handoff (v : Error)
  | ret (err : Error)
deriving DecidableEq, Repr

/-- Everything `serve` does not decide itself. -/
structure Env where
  /-- value returned by `srv.ListenAndServe()` -/
  listenResult : Error
  /-- value returned by `srv.Shutdown(ctx)` -/
  shutdownResult : Error
  /-- termination signals the operating system delivers, in order -/
  signals : List Signal
  /-- counter of `app.wg` when `serve` is entered -/
  wg : Nat
  /-- later `Add(1)` / `Done()` calls on `app.wg` made by background tasks -/
  tasks : List TaskEvent
deriving Repr

/-- Program counter of the caller of `serve`. -/
inductive MainPC where
  /-- lines 15-25: build `srv`, make `shutdownError`, start the goroutine -/
  | setup
  /-- lines 52-55: log "starting server" -/
  | starting
  /-- line 61: inside `srv.ListenAndServe()` -/
  | listening
  /-- line 69: blocked in `<-shutdownError` -/
  | receiving
  /-- lines 63, 71, 80: `serve` has returned this value -/
  | returned (r : Error)
deriving DecidableEq, Repr

/-- Program counter of the goroutine started on line 25. -/
inductive RoutinePC where
  /-- the `go` statement has not run yet -/
  | notStarted
  /-- lines 26-27: make `quit`, `signal.Notify` -/
  | registering
  /-- line 28: blocked in `<-quit` -/
  | awaitingSignal
  /-- lines 34-38: build the context and call `srv.Shutdown(ctx)` -/
  | callingShutdown
  /-- line 38: inside `srv.Shutdown` -/
  | inShutdown
  /-- line 40: blocked in `shutdownError <- err` -/
  | sendingErr (e : GoError)
  /-- lines 43-47: log "completing background tasks", call `app.wg.Wait()` -/
  | beforeWait
  /-- line 47: inside `app.wg.Wait()` -/
  | inWait
  /-- line 49: blocked in `shutdownError <- nil` -/
  | sendingNil
  /-- line 50: the goroutine has finished -/
  | done
deriving DecidableEq, Repr

structure State where
  mpc : MainPC
  gpc : RoutinePC
  /-- the buffered channel `quit` (capacity 1) -/
  quit : Option Signal
  /-- the local variable `s` of the goroutine -/
  sig : Option Signal
  /-- signals not delivered yet -/
  pendingSignals : List Signal
  /-- counter of `app.wg` -/
  wg : Nat
  /-- task events not performed yet -/
  pendingTasks : List TaskEvent
  trace : List Event
deriving DecidableEq, Repr

/-- The moves of a schedule. -/
inductive Action where
  /-- the caller of `serve` performs its next step -/
  | main
  /-- the goroutine performs its next step -/
  | routine
  /-- a send and the receive on `shutdownError` complete together -/
  | handoff
  /-- the operating system delivers the next signal -/
  | deliver
  /-- a background task performs its next `Add`/`Done` -/
  | task
deriving DecidableEq, Repr

def init (env : Env) : State :=
  { mpc := .setup, gpc := .notStarted, quit := none, sig := none,
    pendingSignals := env.signals, wg := env.wg, pendingTasks := env.tasks,
    trace := [] }

/-! ## The step function -/

/-- Lines 61-64: `ListenAndServe` returns `err`; unless it matches the sentinel
the caller returns it at once, otherwise it goes on to the receive. -/
def afterListen (err : Error) : MainPC × List Event :=
  if !isServerClosed err then
    (.returned err, [.listenRet err, .ret err])
  else
    (.receiving, [.listenRet err])

/-- Lines 69-80: the caller has received `v` from `shutdownError`. -/
def afterReceive (v : Error) : MainPC × List Event :=
  if v.isSome then
    (.returned v, [.handoff v, .ret v])
  else
    (.returned none, [.handoff v, .log .stoppedServer, .ret none])

/-- Lines 38-41: `Shutdown` returns `err`; a non-nil one is sent first. -/
def afterShutdown (err : Error) : RoutinePC :=
  match err with
  | some e => .sendingErr e
  | none => .beforeWait

/-- A step of the caller of `serve`. -/
def stepMain (env : Env) (s : State) : Option State :=
  match s.mpc with
  | .setup => some { s with mpc := .starting, gpc := .registering }
  | .starting =>
      some { s with mpc := .listening, trace := s.trace ++ [.log .startingServer] }
  | .listening =>
      some { s with mpc := (afterListen env.listenResult).1,
                    trace := s.trace ++ (afterListen env.listenResult).2 }
  | .receiving => none
  | .returned _ => none

/-- A step of the goroutine. -/
def stepRoutine (env : Env) (s : State) : Option State :=
  match s.gpc with
  | .notStarted => none
  | .registering => some { s with gpc := .awaitingSignal }
  | .awaitingSignal =>
      match s.quit with
      | none => none
      | some sg =>
          some { s with gpc := .callingShutdown, quit := none, sig := some sg,
                        trace := s.trace ++ [.sigRead sg, .log (.caughtSignal sg)] }
  | .callingShutdown =>
      some { s with gpc := .inShutdown,
                    trace := s.trace ++ [.shutdownCall shutdownTimeout] }
  | .inShutdown =>
      some { s with gpc := afterShutdown env.shutdownResult,
                    trace := s.trace ++ [.shutdownRet env.shutdownResult] }
  | .sendingErr _ => none
  | .beforeWait =>
      some { s with gpc := .inWait,
                    trace := s.trace ++ [.log .completingBackgroundTasks, .waitCall] }
  | .inWait =>
      if s.wg = 0 then
        some { s with gpc := .sendingNil, trace := s.trace ++ [.waitRet] }
      else none
  | .sendingNil => none
  | .done => none

/-- The rendezvous on the unbuffered channel `shutdownError`: it happens only
when the caller is at the receive of line 69 and the goroutine at one of its
two sends. -/
def stepHandoff (s : State) : Option State :=
  match s.mpc, s.gpc with
  | .receiving, .sendingErr e =>
      some { s with mpc := (afterReceive (some e)).1, gpc := .beforeWait,
                    trace := s.trace ++ (afterReceive (some e)).2 }
  | .receiving, .sendingNil =>
      some { s with mpc := (afterReceive none).1, gpc := .done,
                    trace := s.trace ++ (afterReceive none).2 }
  | _, _ => none

/-- Whether `signal.Notify` has run. -/
def registered (g : RoutinePC) : Bool :=
  match g with
  | .notStarted => false
  | .registering => false
  | _ => true

/-- Delivery of the next signal: the `os/signal` package does a non-blocking
send on `quit`, so the signal is dropped when the one slot is taken.  Before
`signal.Notify` the signal would end the process; such runs are not runs of
the protocol and the action is not enabled. -/
def stepDeliver (s : State) : Option State :=
  if registered s.gpc then
    match s.pendingSignals with
    | [] => none
    | sg :: rest =>
        some { s with pendingSignals := rest,
                      quit := if s.quit.isNone then some sg else s.quit }
  else none

/-- The next `Add(1)` or `Done()` on `app.wg`; `Done` on a zero counter panics
and is not enabled. -/
def stepTask (s : State) : Option State :=
  match s.pendingTasks with
  | [] => none
  | .add :: rest => some { s with pendingTasks := rest, wg := s.wg + 1 }
  | .done :: rest =>
      if s.wg = 0 then none
      else some { s with pendingTasks := rest, wg := s.wg - 1 }

def step (env : Env) (a : Action) (s : State) : Option State :=
  match a with
  | .main => stepMain env s
  | .routine => stepRoutine env s
  | .handoff => stepHandoff s
  | .deliver => stepDeliver s
  | .task => stepTask s

/-- An action that is not enabled leaves the state as it is. -/
def stepD (env : Env) (s : State) (a : Action) : State :=
  (step env a s).getD s

def run (env : Env) (sched : List Action) (s : State) : State :=
  sched.foldl (stepD env) s

/-- The state `serve` is in after the schedule, from its entry. -/
def exec (env : Env) (sched : List Action) : State :=
  run env sched (init env)

/-- The value `serve` has returned, if it has. -/
def result (s : State) : Option Error :=
  match s.mpc with
  | .returned r => some r
  | _ => none

def allActions : List Action := [.main, .routine, .handoff, .deliver, .task]

/-- No action is enabled: the run cannot go on. -/
def quiescent (env : Env) (s : State) : Bool :=
  allActions.all fun a => (step env a s).isNone

/-- The timeouts of the `Shutdown` calls made so far, in order. -/
def shutdownCalls (t : List Event) : List Nat :=
  t.filterMap fun e => match e with
    | .shutdownCall d => some d
    | _ => none

/-- The signals read from `quit` so far, in order. -/
def signalsRead (t : List Event) : List Signal :=
  t.filterMap fun e => match e with
    | .sigRead s => some s
    | _ => none

/-- Every occurrence of `b` in the trace has an `a` before it. -/
def Precedes (a b : Event) (t : List Event) : Prop :=
  ∀ pre post, t = pre ++ b :: post → a ∈ pre

/-! ## The invariant -/


/-- Events of the goroutine (the rendezvous belongs to both threads). -/
def Event.byRoutine : Event → Bool
  | .sigRead _ => true
  | .log (.caughtSignal _) => true
  | .log .completingBackgroundTasks => true
  | .shutdownCall _ => true
  | .shutdownRet _ => true
  | .waitCall => true
  | .waitRet => true
  | .handoff _ => true
  | _ => false

/-- Events of the caller of `serve`. -/
def Event.byMain : Event → Bool
  | .log .startingServer => true
  | .log .stoppedServer => true
  | .listenRet _ => true
  | .handoff _ => true
  | .ret _ => true
  | _ => false

def sigPart (sig : Option Signal) : List Event :=
  match sig with
  | none => []
  | some s => [.sigRead s, .log (.caughtSignal s)]

def errPart (sd : Error) : List Event :=
  match sd with
  | some e => [.handoff (some e)]
  | none => []

/-- What the goroutine has done after reading the signal, by program counter. -/
def routineTail (sd : Error) : RoutinePC → List Event
  | .notStarted => []
  | .registering => []
  | .awaitingSignal => []
  | .callingShutdown => []
  | .inShutdown => [.shutdownCall shutdownTimeout]
  | .sendingErr e => [.shutdownCall shutdownTimeout, .shutdownRet (some e)]
  | .beforeWait => [.shutdownCall shutdownTimeout, .shutdownRet sd] ++ errPart sd
  | .inWait =>
      [.shutdownCall shutdownTimeout, .shutdownRet sd] ++ errPart sd ++
        [.log .completingBackgroundTasks, .waitCall]
  | .sendingNil =>
      [.shutdownCall shutdownTimeout, .shutdownRet sd] ++ errPart sd ++
        [.log .completingBackgroundTasks, .waitCall, .waitRet]
  | .done =>
      [.shutdownCall shutdownTimeout, .shutdownRet sd] ++ errPart sd ++
        [.log .completingBackgroundTasks, .waitCall, .waitRet, .handoff none]

/-- What the caller has done, by program counter. -/
def mainHist (ls : Error) : MainPC → List Event
  | .setup => []
  | .starting => []
  | .listening => [.log .startingServer]
  | .receiving => [.log .startingServer, .listenRet ls]
  | .returned r =>
      if isServerClosed ls then
        [.log .startingServer, .listenRet ls] ++ (afterReceive r).2
      else
        .log .startingServer :: (afterListen ls).2

/-- The goroutine has completed a send on `shutdownError`. -/
def handedOff (sd : Error) : RoutinePC → Bool
  | .done => true
  | .beforeWait => sd.isSome
  | .inWait => sd.isSome
  | .sendingNil => sd.isSome
  | _ => false

/-- The goroutine has not read from `quit` yet. -/
def beforeRead : RoutinePC → Bool
  | .notStarted => true
  | .registering => true
  | .awaitingSignal => true
  | _ => false

/-- The call `app.wg.Wait()` has returned. -/
def afterWait : RoutinePC → Bool
  | .sendingNil => true
  | .done => true
  | _ => false

/-- How the two program counters constrain each other. -/
def coupled (env : Env) (m : MainPC) (g : RoutinePC) : Prop :=
  match m with
  | .setup => g = .notStarted
  | .starting => g ≠ .notStarted ∧ handedOff env.shutdownResult g = false
  | .listening => g ≠ .notStarted ∧ handedOff env.shutdownResult g = false
  | .receiving =>
      g ≠ .notStarted ∧ handedOff env.shutdownResult g = false ∧
        isServerClosed env.listenResult = true
  | .returned r =>
      g ≠ .notStarted ∧
        ((isServerClosed env.listenResult = false ∧ r = env.listenResult ∧
            handedOff env.shutdownResult g = false) ∨
         (isServerClosed env.listenResult = true ∧ r = env.shutdownResult ∧
            handedOff env.shutdownResult g = true))

/-- The invariant of `serve`: each thread's events are exactly those its
program counter stands for, and the state is consistent with the inputs. -/
structure Inv (env : Env) (s : State) : Prop where
  routineEvents :
    s.trace.filter Event.byRoutine = sigPart s.sig ++ routineTail env.shutdownResult s.gpc
  mainEvents : s.trace.filter Event.byMain = mainHist env.listenResult s.mpc
  pcs : coupled env s.mpc s.gpc
  sendErr : ∀ e, s.gpc = .sendingErr e → env.shutdownResult = some e
  doneNil : s.gpc = .done → env.shutdownResult = none
  unread : beforeRead s.gpc = true →
    s.sig = none ∧ ((s.quit = none ∧ s.pendingSignals = env.signals) ∨
      ∃ sg, s.quit = some sg ∧ env.signals.head? = some sg)
  read : beforeRead s.gpc = false → ∃ sg, s.sig = some sg ∧ env.signals.head? = some sg
  noTasks : env.tasks = [] → s.pendingTasks = [] ∧ s.wg = env.wg
  drained : afterWait s.gpc = true → env.tasks = [] → env.wg = 0


/-! ## Termination measure -/

def MainPC.rank : MainPC → Nat
  | .setup => 12
  | .starting => 3
  | .listening => 2
  | .receiving => 1
  | .returned _ => 0

def RoutinePC.rank : RoutinePC → Nat
  | .notStarted => 9
  | .registering => 8
  | .awaitingSignal => 7
  | .callingShutdown => 6
  | .inShutdown => 5
  | .sendingErr _ => 4
  | .beforeWait => 3
  | .inWait => 2
  | .sendingNil => 1
  | .done => 0

/-- Every enabled action makes this number smaller, so runs are finite. -/
def State.fuel (s : State) : Nat :=
  s.mpc.rank + s.gpc.rank + s.pendingSignals.length + s.pendingTasks.length

/-- Computable test for `Precedes`: scanning from the left, an `a` is met
before any `b`. -/
def precedesB (a b : Event) : List Event → Bool
  | [] => true
  | x :: xs => if x = b then false else if x = a then true else precedesB a b xs

/-! ## Concrete inputs -/

/-- One SIGINT, the closed sentinel from `ListenAndServe`, a clean `Shutdown`,
nothing registered on `app.wg`. -/
def envClean : Env :=
  { listenResult := some ErrServerClosed, shutdownResult := none,
    signals := [.SIGINT], wg := 0, tasks := [] }

/-- As `envClean`, but `Shutdown` runs into its deadline. -/
def envShutdownFault : Env :=
  { listenResult := some ErrServerClosed, shutdownResult := some DeadlineExceeded,
    signals := [.SIGINT], wg := 0, tasks := [] }

/-- The usual course of a run: the caller starts the goroutine, logs and
enters `ListenAndServe`; the goroutine registers, the signal is delivered and
read, `Shutdown` is called; `ListenAndServe` returns; `Shutdown` returns; then
rendezvous, `Wait`, rendezvous (a step that is not enabled is skipped). -/
def schedTypical : List Action :=
  [.main, .main, .routine, .deliver, .routine, .routine, .main, .routine,
   .handoff, .routine, .routine, .handoff]

/-- One SIGTERM is delivered, and `ListenAndServe` fails with a genuine
listen-time fault. -/
def envListenFault : Env :=
  { listenResult := some ErrAddrInUse, shutdownResult := none,
    signals := [.SIGTERM], wg := 0, tasks := [] }

/-- The caller of `serve` runs alone: start the goroutine, log, and
`ListenAndServe` returns. -/
def schedMainOnly : List Action := [.main, .main, .main]

/-- The schedule `schedTypical` up to the first rendezvous on
`shutdownError`. -/
def schedFirstHandoff : List Action :=
  [.main, .main, .routine, .deliver, .routine, .routine, .main, .routine, .handoff]

/-- One background task is registered and never completes; `Shutdown` is
clean. -/
def envHungTask : Env :=
  { listenResult := some ErrServerClosed, shutdownResult := none,
    signals := [.SIGINT], wg := 1, tasks := [] }

/-- One background task is registered and never completes, and `Shutdown` runs
into its deadline. -/
def envHungTaskFault : Env :=
  { listenResult := some ErrServerClosed, shutdownResult := some DeadlineExceeded,
    signals := [.SIGINT], wg := 1, tasks := [] }

/-- `ListenAndServe` returns nil and no signal is delivered. -/
def envNilListen : Env :=
  { listenResult := none, shutdownResult := none, signals := [], wg := 0, tasks := [] }

/-- The same inputs with every signal after the first one removed. -/
def firstOnly (env : Env) : Env :=
  { env with signals := env.signals.take 1 }

/-- What the two threads have done and can still do: everything in the state
but the signal queue and the `quit` slot. -/
def observe (s : State) :
    MainPC × RoutinePC × Option Signal × Nat × List TaskEvent × List Event :=
  (s.mpc, s.gpc, s.sig, s.wg, s.pendingTasks, s.trace)

/-- The relation between a run and the run in which only the first signal is
ever delivered. -/
def Sim (a b : State) : Prop :=
  observe a = observe b ∧
  (a.mpc = .setup → a.gpc = .notStarted) ∧
  (beforeRead a.gpc = true →
    a.quit = b.quit ∧ (a.quit = none → b.pendingSignals = a.pendingSignals.take 1))

/-- The values handed over on `shutdownError` so far, in order. -/
def handoffValues (t : List Event) : List Error :=
  t.filterMap fun e => match e with
    | .handoff v => some v
    | _ => none

/-- Whether the goroutine is blocked in a send on `shutdownError`. -/
def atSend : RoutinePC → Bool
  | .sendingErr _ => true
  | .sendingNil => true
  | _ => false

/-- The number of send statements on `shutdownError` the goroutine has
reached: the sends that have completed plus the one it is blocked in. -/
def sendAttempts (s : State) : Nat :=
  (handoffValues s.trace).length + (if atSend s.gpc then 1 else 0)

/-! ## Invariant preservation -/

theorem inv_init (env : Env) : Inv env (init env) := by
  constructor <;> simp [init, sigPart, routineTail, mainHist, coupled, beforeRead, afterWait]

theorem inv_stepMain {env : Env} {s s2 : State}
    (hi : Inv env s) (h : stepMain env s = some s2) : Inv env s2 := by
  obtain ⟨ls, sd, sigs, wg0, tasks⟩ := env
  obtain ⟨mpc, gpc, quit, sig, pend, wg, ptasks, trace⟩ := s
  obtain ⟨h1, h2, h3, h4, h5, h6, h7, h8, h9⟩ := hi
  simp only at h1 h2 h3 h4 h5 h6 h7 h8 h9
  cases hc : isServerClosed ls <;>
  cases mpc <;> simp [stepMain] at h <;> subst h <;>
  refine ⟨?_, ?_, ?_, ?_, ?_, ?_, ?_, ?_, ?_⟩ <;> dsimp only <;>
  first
  | assumption
  | simp_all [sigPart, routineTail, mainHist, coupled, beforeRead, afterWait, handedOff, afterListen,
      afterReceive, afterShutdown, Event.byRoutine, Event.byMain, List.filter_append]

set_option maxHeartbeats 2000000 in
theorem inv_stepRoutine {env : Env} {s s2 : State}
    (hi : Inv env s) (h : stepRoutine env s = some s2) : Inv env s2 := by
  obtain ⟨ls, sd, sigs, wg0, tasks⟩ := env
  obtain ⟨mpc, gpc, quit, sig, pend, wg, ptasks, trace⟩ := s
  obtain ⟨h1, h2, h3, h4, h5, h6, h7, h8, h9⟩ := hi
  simp only at h1 h2 h3 h4 h5 h6 h7 h8 h9
  cases gpc <;> simp only [stepRoutine] at h
  case notStarted => simp at h
  case sendingErr => simp at h
  case sendingNil => simp at h
  case done => simp at h
  case registering =>
    simp at h; subst h
    refine ⟨?_, ?_, ?_, ?_, ?_, ?_, ?_, ?_, ?_⟩ <;> dsimp only <;>
    first
    | assumption
    | (cases mpc <;>
       simp_all [sigPart, errPart, routineTail, mainHist, coupled, beforeRead, afterWait, handedOff])
  case awaitingSignal =>
    cases quit <;> simp at h
    subst h
    refine ⟨?_, ?_, ?_, ?_, ?_, ?_, ?_, ?_, ?_⟩ <;> dsimp only <;>
    first
    | assumption
    | (cases mpc <;>
       simp_all [sigPart, errPart, routineTail, mainHist, coupled, beforeRead, afterWait, handedOff,
        Event.byRoutine, Event.byMain, List.filter_append])
  case callingShutdown =>
    simp at h; subst h
    refine ⟨?_, ?_, ?_, ?_, ?_, ?_, ?_, ?_, ?_⟩ <;> dsimp only <;>
    first
    | assumption
    | (cases mpc <;>
       simp_all [sigPart, errPart, routineTail, mainHist, coupled, beforeRead, afterWait, handedOff,
        afterListen, afterReceive, afterShutdown, Event.byRoutine, Event.byMain,
        List.filter_append])
  case inShutdown =>
    simp at h; subst h
    cases sd <;>
    refine ⟨?_, ?_, ?_, ?_, ?_, ?_, ?_, ?_, ?_⟩ <;> dsimp only <;>
    first
    | assumption
    | (cases mpc <;>
       simp_all [sigPart, errPart, routineTail, mainHist, coupled, beforeRead, afterWait, handedOff,
        afterListen, afterReceive, afterShutdown, Event.byRoutine, Event.byMain,
        List.filter_append])
  case beforeWait =>
    simp at h; subst h
    cases sd <;>
    refine ⟨?_, ?_, ?_, ?_, ?_, ?_, ?_, ?_, ?_⟩ <;> dsimp only <;>
    first
    | assumption
    | (cases mpc <;>
       simp_all [sigPart, errPart, routineTail, mainHist, coupled, beforeRead, afterWait, handedOff,
        afterListen, afterReceive, afterShutdown, Event.byRoutine, Event.byMain,
        List.filter_append])
  case inWait =>
    simp at h; obtain ⟨hw, h⟩ := h; subst h
    cases sd <;>
    refine ⟨?_, ?_, ?_, ?_, ?_, ?_, ?_, ?_, ?_⟩ <;> dsimp only <;>
    first
    | assumption
    | (cases mpc <;>
       simp_all [sigPart, errPart, routineTail, mainHist, coupled, beforeRead, afterWait, handedOff,
        afterListen, afterReceive, afterShutdown, Event.byRoutine, Event.byMain,
        List.filter_append])

set_option maxHeartbeats 2000000 in
theorem inv_stepHandoff {env : Env} {s s2 : State}
    (hi : Inv env s) (h : stepHandoff s = some s2) : Inv env s2 := by
  obtain ⟨ls, sd, sigs, wg0, tasks⟩ := env
  obtain ⟨mpc, gpc, quit, sig, pend, wg, ptasks, trace⟩ := s
  obtain ⟨h1, h2, h3, h4, h5, h6, h7, h8, h9⟩ := hi
  simp only at h1 h2 h3 h4 h5 h6 h7 h8 h9
  cases mpc <;> cases gpc <;> simp [stepHandoff] at h <;> subst h <;> cases sd <;>
    refine ⟨?_, ?_, ?_, ?_, ?_, ?_, ?_, ?_, ?_⟩ <;> dsimp only <;>
    first
    | assumption
    | simp_all [sigPart, errPart, routineTail, mainHist, coupled, beforeRead, afterWait, handedOff,
        afterListen, afterReceive, afterShutdown, Event.byRoutine, Event.byMain,
        List.filter_append]

theorem inv_stepDeliver {env : Env} {s s2 : State}
    (hi : Inv env s) (h : stepDeliver s = some s2) : Inv env s2 := by
  obtain ⟨ls, sd, sigs, wg0, tasks⟩ := env
  obtain ⟨mpc, gpc, quit, sig, pend, wg, ptasks, trace⟩ := s
  obtain ⟨h1, h2, h3, h4, h5, h6, h7, h8, h9⟩ := hi
  simp only at h1 h2 h3 h4 h5 h6 h7 h8 h9
  simp only [stepDeliver] at h
  cases pend <;> simp at h
  obtain ⟨hr, h⟩ := h
  subst h
  refine ⟨?_, ?_, ?_, ?_, ?_, ?_, ?_, ?_, ?_⟩ <;> dsimp only <;>
    first
    | assumption
    | skip
  intro hb
  obtain ⟨hs, hq | ⟨sg, hq, hh⟩⟩ := h6 hb
  · obtain ⟨hq1, hq2⟩ := hq
    subst hq1; subst hq2
    simp [hs]
  · subst hq
    simp [hs, hh]

theorem inv_stepTask {env : Env} {s s2 : State}
    (hi : Inv env s) (h : stepTask s = some s2) : Inv env s2 := by
  obtain ⟨ls, sd, sigs, wg0, tasks⟩ := env
  obtain ⟨mpc, gpc, quit, sig, pend, wg, ptasks, trace⟩ := s
  obtain ⟨h1, h2, h3, h4, h5, h6, h7, h8, h9⟩ := hi
  simp only at h1 h2 h3 h4 h5 h6 h7 h8 h9
  simp only [stepTask] at h
  cases ptasks with
  | nil => simp at h
  | cons t rest =>
    cases t
    · simp at h; subst h
      refine ⟨h1, h2, h3, h4, h5, h6, h7, ?_, h9⟩
      intro ht; simp_all
    · simp at h; obtain ⟨hw, h⟩ := h; subst h
      refine ⟨h1, h2, h3, h4, h5, h6, h7, ?_, h9⟩
      intro ht; simp_all

theorem inv_step {env : Env} {s s2 : State} {a : Action}
    (hi : Inv env s) (h : step env a s = some s2) : Inv env s2 := by
  cases a
  · exact inv_stepMain hi h
  · exact inv_stepRoutine hi h
  · exact inv_stepHandoff hi h
  · exact inv_stepDeliver hi h
  · exact inv_stepTask hi h

/-! ## Runs, termination and rest states -/

theorem run_nil (env : Env) (s : State) : run env [] s = s := rfl

theorem run_cons (env : Env) (a : Action) (sched : List Action) (s : State) :
    run env (a :: sched) s = run env sched (stepD env s a) := rfl

theorem run_append (env : Env) (xs ys : List Action) (s : State) :
    run env (xs ++ ys) s = run env ys (run env xs s) := by
  simp [run, List.foldl_append]

theorem exec_append (env : Env) (xs ys : List Action) :
    exec env (xs ++ ys) = run env ys (exec env xs) := by
  simp [exec, run_append]

theorem inv_stepD {env : Env} {s : State} (a : Action) (hi : Inv env s) :
    Inv env (stepD env s a) := by
  unfold stepD
  cases h : step env a s with
  | none => simpa using hi
  | some s2 => simpa using inv_step hi h

theorem inv_run {env : Env} (sched : List Action) {s : State} (hi : Inv env s) :
    Inv env (run env sched s) := by
  induction sched generalizing s with
  | nil => exact hi
  | cons a rest ih => exact ih (inv_stepD a hi)

theorem inv_exec (env : Env) (sched : List Action) : Inv env (exec env sched) :=
  inv_run sched (inv_init env)

theorem step_fuel {env : Env} {s s2 : State} {a : Action}
    (h : step env a s = some s2) : s2.fuel < s.fuel := by
  obtain ⟨ls, sd, sigs, wg0, tasks⟩ := env
  obtain ⟨mpc, gpc, quit, sig, pend, wg, ptasks, trace⟩ := s
  cases a <;> simp only [step] at h
  · cases hc : isServerClosed ls <;> cases mpc <;> simp [stepMain, afterListen, hc] at h <;>
      subst h <;> simp [State.fuel, MainPC.rank, RoutinePC.rank]
    all_goals cases gpc <;> simp
  · cases gpc <;> simp only [stepRoutine] at h
    case awaitingSignal =>
      cases quit <;> simp at h
      subst h; simp [State.fuel, RoutinePC.rank]
    case inShutdown =>
      simp at h; subst h
      cases sd <;> simp [State.fuel, RoutinePC.rank, afterShutdown]
    case inWait =>
      simp at h; obtain ⟨hw, h⟩ := h; subst h; simp [State.fuel, RoutinePC.rank]
    all_goals simp at h
    all_goals subst h; simp [State.fuel, RoutinePC.rank]
  · cases mpc <;> cases gpc <;> simp [stepHandoff, afterReceive] at h <;> subst h <;>
      simp [State.fuel, MainPC.rank, RoutinePC.rank]
  · simp only [stepDeliver] at h
    cases pend <;> simp at h
    obtain ⟨hr, h⟩ := h
    subst h; simp [State.fuel]
  · simp only [stepTask] at h
    cases ptasks with
    | nil => simp at h
    | cons t rest =>
      cases t
      · simp at h; subst h; simp [State.fuel]
      · simp at h; obtain ⟨hw, h⟩ := h; subst h; simp [State.fuel]

theorem quiescent_iff (env : Env) (s : State) :
    quiescent env s = true ↔ ∀ a, step env a s = none := by
  constructor
  · intro h a
    simp [quiescent, allActions] at h
    obtain ⟨h1, h2, h3, h4, h5⟩ := h
    cases a <;> assumption
  · intro h
    simp [quiescent, allActions, h]

/-- From every state the run can be carried on until nothing is enabled. -/
theorem exists_complete (env : Env) (s : State) :
    ∃ sched, quiescent env (run env sched s) = true := by
  generalize hn : s.fuel = n
  induction n using Nat.strong_induction_on generalizing s with
  | _ n ih =>
    by_cases hq : quiescent env s = true
    · exact ⟨[], hq⟩
    · have : ∃ a, step env a s ≠ none := by
        by_contra hc
        push_neg at hc
        exact hq ((quiescent_iff env s).2 hc)
      obtain ⟨a, ha⟩ := this
      obtain ⟨s2, hs2⟩ := Option.ne_none_iff_exists'.1 ha
      have hlt : s2.fuel < n := hn ▸ step_fuel hs2
      obtain ⟨sched, hsched⟩ := ih s2.fuel hlt s2 rfl
      refine ⟨a :: sched, ?_⟩
      rw [run_cons]
      simpa [stepD, hs2] using hsched

/-- Where a run can come to rest: the caller is blocked at the receive or has
returned, and the goroutine is blocked at `<-quit`, at one of its two sends,
in `Wait`, or has finished. -/
theorem quiescent_cases {env : Env} {s : State} (hi : Inv env s)
    (hq : quiescent env s = true) :
    (s.mpc = .receiving ∨ ∃ r, s.mpc = .returned r) ∧
    ((s.gpc = .awaitingSignal ∧ s.quit = none ∧ s.pendingSignals = []) ∨
     (∃ e, s.gpc = .sendingErr e ∧ s.mpc ≠ .receiving) ∨
     (s.gpc = .inWait ∧ s.wg ≠ 0) ∨
     (s.gpc = .sendingNil ∧ s.mpc ≠ .receiving) ∨
     s.gpc = .done) := by
  have hall := (quiescent_iff env s).1 hq
  have hm := hall .main
  have hr := hall .routine
  have hh := hall .handoff
  have hd := hall .deliver
  have hpcs := hi.pcs
  obtain ⟨mpc, gpc, quit, sig, pend, wg, ptasks, trace⟩ := s
  simp only [step] at hm hr hh hd
  simp only at hpcs
  constructor
  · cases mpc <;> simp [stepMain] at hm ⊢
  · cases gpc <;> simp [stepRoutine] at hr ⊢
    case notStarted =>
      cases mpc <;> simp [stepMain, coupled] at hm hpcs
    case awaitingSignal =>
      cases quit <;> simp at hr ⊢
      cases pend <;> simp [stepDeliver, registered] at hd ⊢
    case sendingErr e =>
      intro hrec
      simp [hrec, stepHandoff] at hh
    case inWait => exact hr
    case sendingNil =>
      intro hrec
      simp [hrec, stepHandoff] at hh

/-! ## Traces -/

theorem precedesB_sound {a b : Event} {l : List Event} (h : precedesB a b l = true) :
    Precedes a b l := by
  induction l with
  | nil =>
    intro pre post hpre
    simp at hpre
  | cons x xs ih =>
    intro pre post hpre
    simp only [precedesB] at h
    by_cases hxb : x = b
    · simp [hxb] at h
    · simp only [hxb, if_false] at h
      cases pre with
      | nil =>
        simp at hpre
        exact absurd hpre.1 hxb
      | cons p pre2 =>
        simp at hpre
        obtain ⟨hp, hrest⟩ := hpre
        subst hp
        by_cases hxa : x = a
        · simp [hxa]
        · simp only [hxa, if_false] at h
          exact List.mem_cons_of_mem _ (ih h pre2 post hrest)

/-- An order that holds among the events of one thread holds in the whole
trace. -/
theorem precedes_of_filter {a b : Event} {t : List Event} (p : Event → Bool)
    (hb : p b = true) (h : precedesB a b (t.filter p) = true) : Precedes a b t := by
  intro pre post hpre
  have hs := precedesB_sound h (pre.filter p) (post.filter p)
    (by rw [hpre, List.filter_append, List.filter_cons_of_pos hb])
  exact List.mem_of_mem_filter hs

theorem shutdownCalls_filter (t : List Event) :
    shutdownCalls (t.filter Event.byRoutine) = shutdownCalls t := by
  induction t with
  | nil => rfl
  | cons x xs ih =>
    cases x with
    | log l => cases l <;> simp_all [shutdownCalls, List.filter_cons, Event.byRoutine]
    | _ => simp_all [shutdownCalls, List.filter_cons, Event.byRoutine]

theorem signalsRead_filter (t : List Event) :
    signalsRead (t.filter Event.byRoutine) = signalsRead t := by
  induction t with
  | nil => rfl
  | cons x xs ih =>
    cases x with
    | log l => cases l <;> simp_all [signalsRead, List.filter_cons, Event.byRoutine]
    | _ => simp_all [signalsRead, List.filter_cons, Event.byRoutine]

theorem mem_of_mem_routineEvents {env : Env} {s : State} (hi : Inv env s) {e : Event}
    (h : e ∈ sigPart s.sig ++ routineTail env.shutdownResult s.gpc) : e ∈ s.trace := by
  rw [← hi.routineEvents] at h
  exact List.mem_of_mem_filter h

theorem mem_routineEvents {env : Env} {s : State} (hi : Inv env s) {e : Event}
    (hr : e.byRoutine = true) (h : e ∈ s.trace) :
    e ∈ sigPart s.sig ++ routineTail env.shutdownResult s.gpc := by
  rw [← hi.routineEvents]
  exact List.mem_filter.2 ⟨h, hr⟩

theorem mem_mainEvents {env : Env} {s : State} (hi : Inv env s) {e : Event}
    (hr : e.byMain = true) (h : e ∈ s.trace) :
    e ∈ mainHist env.listenResult s.mpc := by
  rw [← hi.mainEvents]
  exact List.mem_filter.2 ⟨h, hr⟩

theorem mem_of_mem_mainEvents {env : Env} {s : State} (hi : Inv env s) {e : Event}
    (h : e ∈ mainHist env.listenResult s.mpc) : e ∈ s.trace := by
  rw [← hi.mainEvents] at h
  exact List.mem_of_mem_filter h

theorem is_iff_mem_chain (t e : GoError) : GoError.is t e = true ↔ t ∈ e.chain := by
  induction e with
  | base c =>
    simp only [GoError.is, GoError.chain, decide_eq_true_eq, List.mem_singleton]
    exact eq_comm
  | wrap c inner ih =>
    simp only [GoError.is, GoError.chain, Bool.or_eq_true, decide_eq_true_eq, List.mem_cons, ih]
    constructor
    · rintro (h | h)
      · exact Or.inl h.symm
      · exact Or.inr h
    · rintro (h | h)
      · exact Or.inl h.symm
      · exact Or.inr h

/-! ## The outcome of `serve` -/

/-- What a returned value can be: the listen fault, or the value handed over
by the goroutine, which is the result of `Shutdown`. -/
theorem result_cases {env : Env} {s : State} (hi : Inv env s) {r : Error}
    (h : result s = some r) :
    (isServerClosed env.listenResult = false ∧ r = env.listenResult ∧
        handedOff env.shutdownResult s.gpc = false) ∨
    (isServerClosed env.listenResult = true ∧ r = env.shutdownResult ∧
        handedOff env.shutdownResult s.gpc = true) := by
  have hp := hi.pcs
  cases hm : s.mpc <;> simp [result, hm] at h
  subst h
  simp only [hm, coupled] at hp
  exact hp.2

theorem quiescent_not_closed {env : Env} {s : State} (hi : Inv env s)
    (hq : quiescent env s = true) (hc : isServerClosed env.listenResult = false) :
    result s = some env.listenResult := by
  have hp := hi.pcs
  obtain ⟨hm | ⟨r, hm⟩, -⟩ := quiescent_cases hi hq
  · simp [hm, coupled, hc] at hp
  · simp [hm, coupled, hc] at hp
    simp [result, hm, hp.2.1]

theorem quiescent_closed {env : Env} {s : State} (hi : Inv env s)
    (hq : quiescent env s = true) (hc : isServerClosed env.listenResult = true)
    (hsig : env.signals ≠ []) :
    (∃ e, env.shutdownResult = some e ∧ result s = some (some e)) ∨
    (env.shutdownResult = none ∧ s.gpc = .done ∧ result s = some none) ∨
    (env.shutdownResult = none ∧ s.gpc = .inWait ∧ s.wg ≠ 0 ∧ s.mpc = .receiving) := by
  have hp := hi.pcs
  have hu := hi.unread
  have hd := hi.doneNil
  obtain ⟨hm, hg⟩ := quiescent_cases hi hq
  rcases hg with ⟨hg, hq1, hq2⟩ | ⟨e, hg, hne⟩ | ⟨hg, hw⟩ | ⟨hg, hne⟩ | hg
  · exfalso
    have := hu (by simp [hg, beforeRead])
    simp [hq1, hq2] at this
    exact hsig this.2
  · exfalso
    rcases hm with hm | ⟨r, hm⟩
    · exact hne hm
    · simp [hm, hg, coupled, handedOff, hc] at hp
  · rcases hm with hm | ⟨r, hm⟩
    · simp [hm, hg, coupled, handedOff] at hp
      exact Or.inr (Or.inr ⟨hp.1, hg, hw, hm⟩)
    · simp [hm, hg, coupled, handedOff, hc] at hp
      obtain ⟨hr, hs⟩ := hp
      obtain ⟨e, he⟩ := Option.isSome_iff_exists.1 hs
      exact Or.inl ⟨e, he, by simp [result, hm, hr, he]⟩
  · rcases hm with hm | ⟨r, hm⟩
    · exact absurd hm hne
    · simp [hm, hg, coupled, handedOff, hc] at hp
      obtain ⟨hr, hs⟩ := hp
      obtain ⟨e, he⟩ := Option.isSome_iff_exists.1 hs
      exact Or.inl ⟨e, he, by simp [result, hm, hr, he]⟩
  · have hsd := hd hg
    rcases hm with hm | ⟨r, hm⟩
    · simp [hm, hg, coupled, handedOff] at hp
    · simp [hm, hg, coupled, handedOff, hc] at hp
      exact Or.inr (Or.inl ⟨hsd, hg, by simp [result, hm, hp, hsd]⟩)

/-! ## The claims -/

/-- C1 (clean stop): when a termination signal is delivered, `ListenAndServe`
returns the closed sentinel, `Shutdown` returns nil and `app.wg` is at zero with
no task left to register, then `serve` can only return nil, every run that has
come to rest has returned nil, and every run can be carried on to that point. -/
theorem C1_clean_stop (env : Env) (sched : List Action)
    (hsig : env.signals ≠ [])
    (hclosed : isServerClosed env.listenResult = true)
    (hsd : env.shutdownResult = none)
    (hwg : env.wg = 0) (htasks : env.tasks = []) :
    (∀ r, result (exec env sched) = some r → r = none) ∧
    (quiescent env (exec env sched) = true → result (exec env sched) = some none) ∧
    ∃ more, quiescent env (exec env (sched ++ more)) = true ∧
      result (exec env (sched ++ more)) = some none := by
  have key : ∀ sch, quiescent env (exec env sch) = true →
      result (exec env sch) = some none := by
    intro sch hq
    have hi := inv_exec env sch
    rcases quiescent_closed hi hq hclosed hsig with ⟨e, he, -⟩ | ⟨-, -, hr⟩ | ⟨-, -, hw, -⟩
    · simp [hsd] at he
    · exact hr
    · exact absurd ((hi.noTasks htasks).2.trans hwg) hw
  refine ⟨?_, key sched, ?_⟩
  · intro r hr
    rcases result_cases (inv_exec env sched) hr with ⟨hc, -, -⟩ | ⟨-, h, -⟩
    · simp [hclosed] at hc
    · simpa [hsd] using h
  · obtain ⟨more, hmore⟩ := exists_complete env (exec env sched)
    rw [← exec_append] at hmore
    exact ⟨more, hmore, key _ hmore⟩

theorem C1_clean_stop_witness :
    result (exec envClean schedTypical) = some none :=
  (C1_clean_stop envClean schedTypical (by decide) (by decide) rfl rfl rfl).2.1
    (by decide)

/-- C2 (shutdown fault): when a termination signal is delivered,
`ListenAndServe` returns the closed sentinel and `Shutdown` returns the error
`e`, then `serve` can only return `e`, a returned `e` is the value handed over
on `shutdownError`, every run that has come to rest has returned `e`, and
every run can be carried on to that point. -/
theorem C2_shutdown_fault (env : Env) (e : GoError) (sched : List Action)
    (hsig : env.signals ≠ [])
    (hclosed : isServerClosed env.listenResult = true)
    (hsd : env.shutdownResult = some e) :
    (∀ r, result (exec env sched) = some r →
      r = some e ∧ Event.handoff (some e) ∈ (exec env sched).trace) ∧
    (quiescent env (exec env sched) = true → result (exec env sched) = some (some e)) ∧
    ∃ more, quiescent env (exec env (sched ++ more)) = true ∧
      result (exec env (sched ++ more)) = some (some e) := by
  have key : ∀ sch, quiescent env (exec env sch) = true →
      result (exec env sch) = some (some e) := by
    intro sch hq
    have hi := inv_exec env sch
    rcases quiescent_closed hi hq hclosed hsig with ⟨e2, he, hr⟩ | ⟨h, -, -⟩ | ⟨h, -, -, -⟩
    · rw [hsd] at he
      cases he
      exact hr
    · simp [hsd] at h
    · simp [hsd] at h
  refine ⟨?_, key sched, ?_⟩
  · intro r hr
    have hi := inv_exec env sched
    rcases result_cases hi hr with ⟨hc, -, -⟩ | ⟨-, h, -⟩
    · simp [hclosed] at hc
    · rw [hsd] at h
      subst h
      refine ⟨rfl, mem_of_mem_mainEvents hi ?_⟩
      cases hm : (exec env sched).mpc <;> simp [result, hm] at hr
      subst hr
      simp [mainHist, hclosed, afterReceive]
  · obtain ⟨more, hmore⟩ := exists_complete env (exec env sched)
    rw [← exec_append] at hmore
    exact ⟨more, hmore, key _ hmore⟩

theorem C2_shutdown_fault_witness :
    result (exec envShutdownFault schedTypical) = some (some DeadlineExceeded) :=
  (C2_shutdown_fault envShutdownFault DeadlineExceeded schedTypical
    (by decide) (by decide) rfl).2.1 (by decide)

theorem exec_mainOnly (env : Env) (hc : isServerClosed env.listenResult = false) :
    exec env schedMainOnly =
      { init env with
        mpc := .returned env.listenResult, gpc := .registering,
        trace := [.log .startingServer, .listenRet env.listenResult,
                  .ret env.listenResult] } := by
  simp [exec, run, schedMainOnly, stepD, step, stepMain, init, afterListen, hc]

/-- When `ListenAndServe` returns a value that does not match the sentinel,
the caller returns it in that very step. -/
theorem listen_return (env : Env) {s : State} (hm : s.mpc = .listening)
    (hc : isServerClosed env.listenResult = false) :
    result (run env [.main] s) = some env.listenResult := by
  simp [run, stepD, step, stepMain, hm, afterListen, hc, result]

theorem no_handoff_of_not_closed {env : Env} {s : State} (hi : Inv env s)
    (hc : isServerClosed env.listenResult = false) (v : Error) :
    Event.handoff v ∉ s.trace := by
  intro hv
  have := mem_mainEvents hi (by rfl) hv
  cases hm : s.mpc <;> simp [hm, mainHist, hc, afterListen] at this

/-- C3 (listen fault): when `ListenAndServe` returns an error `e` that does not
match the closed sentinel, `serve` can only return `e`; it does so as soon as
`ListenAndServe` returns, whatever the goroutine has done, and by the
caller's own three steps alone; its events are then
exactly the start log, the return of `ListenAndServe` and the return of `e`;
and no value is ever received from `shutdownError`. -/
theorem C3_listen_fault (env : Env) (e : GoError) (sched : List Action)
    (hls : env.listenResult = some e)
    (hfault : isServerClosed (some e) = false) :
    (∀ r, result (exec env sched) = some r → r = some e) ∧
    (quiescent env (exec env sched) = true → result (exec env sched) = some (some e)) ∧
    ((exec env sched).mpc = .listening →
      result (exec env (sched ++ [.main])) = some (some e)) ∧
    result (exec env schedMainOnly) = some (some e) ∧
    (result (exec env sched) = some (some e) →
      (exec env sched).trace.filter Event.byMain =
        [.log .startingServer, .listenRet (some e), .ret (some e)]) ∧
    (∀ v, Event.handoff v ∉ (exec env sched).trace) := by
  have hc : isServerClosed env.listenResult = false := by rw [hls]; exact hfault
  have hi := inv_exec env sched
  refine ⟨?_, ?_, ?_, ?_, ?_, no_handoff_of_not_closed hi hc⟩
  · intro r hr
    rcases result_cases hi hr with ⟨-, h, -⟩ | ⟨h, -, -⟩
    · rw [h, hls]
    · simp [hc] at h
  · intro hq
    rw [quiescent_not_closed hi hq hc, hls]
  · intro hm
    rw [exec_append, listen_return env hm hc, hls]
  · rw [exec_mainOnly env hc]
    simp [result, hls]
  · intro hr
    rw [hi.mainEvents]
    cases hm : (exec env sched).mpc <;> simp [result, hm] at hr
    subst hr
    simp [mainHist, afterListen, hls, hfault]

theorem C3_listen_fault_witness :
    result (exec envListenFault schedMainOnly) = some (some ErrAddrInUse) :=
  (C3_listen_fault envListenFault ErrAddrInUse schedMainOnly rfl (by decide)).2.2.2.1

/-- C4 (success implies shutdown and drain): when `ListenAndServe` returns a
non-nil error and `serve` has returned nil, that error matched the closed
sentinel, `Shutdown` was called and returned nil, `app.wg.Wait()` returned
before nil was handed over on `shutdownError`, and nil was handed over before
`serve` returned. -/
theorem C4_success_implies_drain (env : Env) (sched : List Action)
    (hls : env.listenResult ≠ none)
    (hret : result (exec env sched) = some none) :
    isServerClosed env.listenResult = true ∧
    env.shutdownResult = none ∧
    Event.shutdownCall shutdownTimeout ∈ (exec env sched).trace ∧
    Event.shutdownRet none ∈ (exec env sched).trace ∧
    Event.handoff none ∈ (exec env sched).trace ∧
    Precedes (.shutdownCall shutdownTimeout) (.shutdownRet none) (exec env sched).trace ∧
    Precedes (.shutdownRet none) .waitCall (exec env sched).trace ∧
    Precedes .waitCall .waitRet (exec env sched).trace ∧
    Precedes .waitRet (.handoff none) (exec env sched).trace ∧
    Precedes (.handoff none) (.ret none) (exec env sched).trace := by
  have hi := inv_exec env sched
  rcases result_cases hi hret with ⟨-, h, -⟩ | ⟨hc, hsd, hh⟩
  · exact absurd h.symm hls
  · have hsd2 : env.shutdownResult = none := hsd.symm
    have hg : (exec env sched).gpc = .done := by
      rw [hsd2] at hh
      cases hg : (exec env sched).gpc <;> simp [hg, handedOff] at hh
      rfl
    have hre := hi.routineEvents
    rw [hg, hsd2] at hre
    have hme := hi.mainEvents
    have hm : (exec env sched).mpc = .returned none := by
      cases hm : (exec env sched).mpc <;> simp [result, hm] at hret
      rw [hret]
    rw [hm] at hme
    have mem : ∀ ev, ev ∈ routineTail none .done → ev ∈ (exec env sched).trace := by
      intro ev hev
      have : ev ∈ List.filter Event.byRoutine (exec env sched).trace := by
        rw [hre]; exact List.mem_append_right _ hev
      exact List.mem_of_mem_filter this
    refine ⟨hc, hsd2, mem _ (by simp [routineTail]), mem _ (by simp [routineTail]),
      mem _ (by simp [routineTail]), ?_, ?_, ?_, ?_, ?_⟩
    · apply precedes_of_filter Event.byRoutine (by rfl)
      rw [hre]
      cases (exec env sched).sig <;> simp [sigPart, routineTail, errPart, precedesB]
    · apply precedes_of_filter Event.byRoutine (by rfl)
      rw [hre]
      cases (exec env sched).sig <;> simp [sigPart, routineTail, errPart, precedesB]
    · apply precedes_of_filter Event.byRoutine (by rfl)
      rw [hre]
      cases (exec env sched).sig <;> simp [sigPart, routineTail, errPart, precedesB]
    · apply precedes_of_filter Event.byRoutine (by rfl)
      rw [hre]
      cases (exec env sched).sig <;> simp [sigPart, routineTail, errPart, precedesB]
    · apply precedes_of_filter Event.byMain (by rfl)
      rw [hme]
      simp [mainHist, hc, afterReceive, precedesB]

theorem C4_success_implies_drain_witness :
    isServerClosed envClean.listenResult = true ∧
    envClean.shutdownResult = none ∧
    Event.shutdownCall shutdownTimeout ∈ (exec envClean schedTypical).trace ∧
    Event.shutdownRet none ∈ (exec envClean schedTypical).trace ∧
    Event.handoff none ∈ (exec envClean schedTypical).trace ∧
    Precedes (.shutdownCall shutdownTimeout) (.shutdownRet none)
      (exec envClean schedTypical).trace ∧
    Precedes (.shutdownRet none) .waitCall (exec envClean schedTypical).trace ∧
    Precedes .waitCall .waitRet (exec envClean schedTypical).trace ∧
    Precedes .waitRet (.handoff none) (exec envClean schedTypical).trace ∧
    Precedes (.handoff none) (.ret none) (exec envClean schedTypical).trace :=
  C4_success_implies_drain envClean schedTypical (by decide) (by decide)

theorem run_quiescent {env : Env} {s : State} (hq : quiescent env s = true)
    (sched : List Action) : run env sched s = s := by
  induction sched with
  | nil => rfl
  | cons a rest ih =>
    rw [run_cons]
    have : stepD env s a = s := by simp [stepD, (quiescent_iff env s).1 hq a]
    rw [this, ih]

theorem handoffValues_filter (t : List Event) :
    handoffValues (t.filter Event.byRoutine) = handoffValues t := by
  induction t with
  | nil => rfl
  | cons x xs ih =>
    cases x with
    | log l => cases l <;> simp_all [handoffValues, List.filter_cons, Event.byRoutine]
    | _ => simp_all [handoffValues, List.filter_cons, Event.byRoutine]

theorem handoffValues_eq {env : Env} {s : State} (hi : Inv env s) :
    handoffValues s.trace =
      handoffValues (sigPart s.sig ++ routineTail env.shutdownResult s.gpc) := by
  rw [← handoffValues_filter, hi.routineEvents]

/-- C5, as stated, fails: with one task registered on `app.wg` that never
completes and a clean `Shutdown`, the signal is read, the run comes to rest
inside `Wait`, and no value is sent on `shutdownError`, nor any send reached,
in any continuation. -/
theorem C5_counterexample :
    signalsRead (exec envHungTask schedTypical).trace = [.SIGINT] ∧
    quiescent envHungTask (exec envHungTask schedTypical) = true ∧
    (exec envHungTask schedTypical).gpc = .inWait ∧
    ∀ more, sendAttempts (exec envHungTask (schedTypical ++ more)) = 0 := by
  refine ⟨by decide, by decide, by decide, ?_⟩
  intro more
  rw [exec_append, run_quiescent (by decide)]
  decide

/-- C5 (amended): in every run in which a termination signal is delivered, at
most one value is ever handed over on `shutdownError`.  When `Shutdown`
returned nil, the goroutine has reached no send while `Wait` has not returned
and exactly one, of nil, once it has.  When `Shutdown` returned an error `e`,
any value handed over is `e`, and if `ListenAndServe` returned the closed
sentinel every run that has come to rest has handed `e` over. -/
theorem C5_one_value (env : Env) (sched : List Action) (hsig : env.signals ≠ []) :
    (handoffValues (exec env sched).trace).length ≤ 1 ∧
    (match env.shutdownResult with
     | none =>
        sendAttempts (exec env sched) = (if afterWait (exec env sched).gpc then 1 else 0) ∧
        ∀ v ∈ handoffValues (exec env sched).trace, v = none
     | some e =>
        (∀ v ∈ handoffValues (exec env sched).trace, v = some e) ∧
        (quiescent env (exec env sched) = true →
          isServerClosed env.listenResult = true →
          handoffValues (exec env sched).trace = [some e])) := by
  have hi := inv_exec env sched
  have hv := handoffValues_eq hi
  have hse := hi.sendErr
  have hdn := hi.doneNil
  constructor
  · rw [hv]
    cases hsg : (exec env sched).sig <;> cases hsd : env.shutdownResult <;>
      cases hg : (exec env sched).gpc <;>
      simp [hg, hsd, handoffValues, sigPart, routineTail, errPart] at hdn ⊢
  · cases hsd : env.shutdownResult with
    | none =>
      rw [hsd] at hv hse
      simp only
      unfold sendAttempts
      rw [hv]
      cases hsg : (exec env sched).sig <;> cases hg : (exec env sched).gpc <;>
        simp [hg, handoffValues, sigPart, routineTail, errPart, atSend, afterWait] at hse ⊢
    | some e =>
      rw [hsd] at hv hdn
      simp only
      refine ⟨?_, ?_⟩
      · rw [hv]
        cases hsg : (exec env sched).sig <;> cases hg : (exec env sched).gpc <;>
          simp [hg, handoffValues, sigPart, routineTail, errPart] at hdn ⊢
      · intro hq hc
        rcases quiescent_closed hi hq hc hsig with ⟨e2, -, hr⟩ | ⟨h, -, -⟩ | ⟨h, -, -, -⟩
        · rcases result_cases hi hr with ⟨hc2, -, -⟩ | ⟨-, -, hh⟩
          · simp [hc] at hc2
          · rw [hv]
            rw [hsd] at hh
            cases hsg : (exec env sched).sig <;> cases hg : (exec env sched).gpc <;>
              simp [hg, handoffValues, sigPart, routineTail, errPart, handedOff] at hdn hh ⊢
        · simp [hsd] at h
        · simp [hsd] at h

theorem C5_one_value_witness :
    (handoffValues (exec envClean schedTypical).trace).length ≤ 1 ∧
    sendAttempts (exec envClean schedTypical) = 1 :=
  have h := C5_one_value envClean schedTypical (by decide)
  ⟨h.1, h.2.1⟩

/-- On a `Shutdown` fault the error branch of lines 39-41 does not return:
with one SIGINT, the closed sentinel from `ListenAndServe`, `Shutdown`
returning `context.DeadlineExceeded` and an empty `app.wg`, the goroutine hands
the error over, `serve` returns it, and the goroutine goes on through `Wait`
to the send of line 49, where it stays blocked in every continuation. -/
theorem second_send_after_fault :
    handoffValues (exec envShutdownFault schedTypical).trace = [some DeadlineExceeded] ∧
    result (exec envShutdownFault schedTypical) = some (some DeadlineExceeded) ∧
    (exec envShutdownFault schedTypical).gpc = .sendingNil ∧
    sendAttempts (exec envShutdownFault schedTypical) = 2 ∧
    ∀ more, (exec envShutdownFault (schedTypical ++ more)).gpc = .sendingNil := by
  refine ⟨by decide, by decide, by decide, by decide, ?_⟩
  intro more
  rw [exec_append, run_quiescent (by decide)]
  decide

/-- C6, as stated, fails: with `Shutdown` returning `context.DeadlineExceeded`
the error is handed over on `shutdownError` when `Wait` has not returned, and
has not even been called. -/
theorem C6_counterexample :
    (exec envShutdownFault schedFirstHandoff).trace =
      [.log .startingServer, .sigRead .SIGINT, .log (.caughtSignal .SIGINT),
       .shutdownCall shutdownTimeout, .listenRet (some ErrServerClosed),
       .shutdownRet (some DeadlineExceeded), .handoff (some DeadlineExceeded),
       .ret (some DeadlineExceeded)] ∧
    Event.handoff (some DeadlineExceeded) ∈
      (exec envShutdownFault schedFirstHandoff).trace ∧
    Event.waitCall ∉ (exec envShutdownFault schedFirstHandoff).trace ∧
    Event.waitRet ∉ (exec envShutdownFault schedFirstHandoff).trace ∧
    ¬ Precedes .waitRet (.handoff (some DeadlineExceeded))
      (exec envShutdownFault schedFirstHandoff).trace := by
  refine ⟨by decide, by decide, by decide, by decide, ?_⟩
  intro h
  have hm := h
    [.log .startingServer, .sigRead .SIGINT, .log (.caughtSignal .SIGINT),
     .shutdownCall shutdownTimeout, .listenRet (some ErrServerClosed),
     .shutdownRet (some DeadlineExceeded)]
    [.ret (some DeadlineExceeded)] (by decide)
  revert hm
  decide

theorem routine_order {env : Env} {s : State} (hi : Inv env s) {a b : Event}
    (hb : b.byRoutine = true)
    (h : ∀ sig g, precedesB a b (sigPart sig ++ routineTail env.shutdownResult g) = true) :
    Precedes a b s.trace := by
  apply precedes_of_filter Event.byRoutine hb
  rw [hi.routineEvents]
  exact h _ _

/-- C6 (amended): in every run the goroutine calls `Shutdown` before it
returns, `Wait` is called only after `Shutdown` has returned and returns only
after it was called, nil is handed over on `shutdownError` only after `Wait`
has returned, and an error is handed over only after `Shutdown` has returned
it; when `Shutdown` returns an error, that error is handed over before `Wait`
is called. -/
theorem C6_protocol_order (env : Env) (sched : List Action) :
    Precedes (.shutdownCall shutdownTimeout) (.shutdownRet env.shutdownResult)
      (exec env sched).trace ∧
    Precedes (.shutdownRet env.shutdownResult) .waitCall (exec env sched).trace ∧
    Precedes .waitCall .waitRet (exec env sched).trace ∧
    Precedes .waitRet (.handoff none) (exec env sched).trace ∧
    (∀ e, Precedes (.shutdownRet (some e)) (.handoff (some e)) (exec env sched).trace) ∧
    (match env.shutdownResult with
     | none => ∀ e, Event.handoff (some e) ∉ (exec env sched).trace
     | some e => Precedes (.handoff (some e)) .waitCall (exec env sched).trace) := by
  have hi := inv_exec env sched
  refine ⟨?_, ?_, ?_, ?_, ?_, ?_⟩
  · apply routine_order hi (by rfl)
    intro sig g
    cases sig <;> cases hsd : env.shutdownResult <;> cases g <;>
      simp [sigPart, routineTail, errPart, precedesB]
  · apply routine_order hi (by rfl)
    intro sig g
    cases sig <;> cases hsd : env.shutdownResult <;> cases g <;>
      simp [sigPart, routineTail, errPart, precedesB]
  · apply routine_order hi (by rfl)
    intro sig g
    cases sig <;> cases hsd : env.shutdownResult <;> cases g <;>
      simp [sigPart, routineTail, errPart, precedesB]
  · apply routine_order hi (by rfl)
    intro sig g
    cases sig <;> cases hsd : env.shutdownResult <;> cases g <;>
      simp [sigPart, routineTail, errPart, precedesB]
  · intro e
    apply routine_order hi (by rfl)
    intro sig g
    cases sig <;> cases hsd : env.shutdownResult <;> cases g <;>
      simp [sigPart, routineTail, errPart, precedesB]
  · cases hsd : env.shutdownResult with
    | none =>
      intro e he
      have hmem := mem_routineEvents hi (by rfl) he
      have hse := hi.sendErr
      rw [hsd] at hmem hse
      cases hsig : (exec env sched).sig <;> cases hg : (exec env sched).gpc <;>
        simp [hsig, hg, sigPart, routineTail, errPart] at hmem
    | some e =>
      apply precedes_of_filter Event.byRoutine (by rfl)
      rw [hi.routineEvents, hsd]
      cases (exec env sched).sig <;> cases (exec env sched).gpc <;>
        simp [sigPart, routineTail, errPart, precedesB]

/-- C7, as stated, fails: while the caller is inside `ListenAndServe` the
signal is handled and `Shutdown` is called; `ListenAndServe` then returns a
genuine fault, which `serve` returns. -/
theorem C7_counterexample :
    isServerClosed envListenFault.listenResult = false ∧
    (exec envListenFault schedTypical).trace =
      [.log .startingServer, .sigRead .SIGTERM, .log (.caughtSignal .SIGTERM),
       .shutdownCall shutdownTimeout, .listenRet (some ErrAddrInUse),
       .ret (some ErrAddrInUse), .shutdownRet none, .log .completingBackgroundTasks,
       .waitCall, .waitRet] ∧
    result (exec envListenFault schedTypical) = some (some ErrAddrInUse) ∧
    shutdownCalls (exec envListenFault schedTypical).trace = [shutdownTimeout] := by
  refine ⟨by decide, by decide, by decide, by decide⟩

theorem unread_routineEvents {env : Env} {s : State} (hi : Inv env s)
    (h : beforeRead s.gpc = true) : s.trace.filter Event.byRoutine = [] := by
  rw [hi.routineEvents, (hi.unread h).1]
  cases hg : s.gpc <;> simp [hg, beforeRead] at h <;> simp [sigPart, routineTail]

/-- C7 (amended): when `ListenAndServe` returns an error `e` that does not
match the closed sentinel, `serve` can only return `e` and every run that has
come to rest has returned it; `Shutdown` is called only by the goroutine, after
it has read the first delivered signal, so it is never called when no signal
is delivered. -/
theorem C7_listen_fault_no_shutdown (env : Env) (e : GoError) (sched : List Action)
    (hls : env.listenResult = some e)
    (hfault : isServerClosed (some e) = false) :
    (∀ r, result (exec env sched) = some r → r = some e) ∧
    (quiescent env (exec env sched) = true → result (exec env sched) = some (some e)) ∧
    (∀ d, Event.shutdownCall d ∈ (exec env sched).trace →
      ∃ sg, env.signals.head? = some sg ∧
        Precedes (.sigRead sg) (.shutdownCall d) (exec env sched).trace) ∧
    (env.signals = [] → shutdownCalls (exec env sched).trace = []) := by
  have hc : isServerClosed env.listenResult = false := by rw [hls]; exact hfault
  have hi := inv_exec env sched
  refine ⟨?_, ?_, ?_, ?_⟩
  · intro r hr
    rcases result_cases hi hr with ⟨-, h, -⟩ | ⟨h, -, -⟩
    · rw [h, hls]
    · simp [hc] at h
  · intro hq
    rw [quiescent_not_closed hi hq hc, hls]
  · intro d hd
    cases hb : beforeRead (exec env sched).gpc with
    | true =>
      have hnil := unread_routineEvents hi hb
      have : Event.shutdownCall d ∈ List.filter Event.byRoutine (exec env sched).trace :=
        List.mem_filter.2 ⟨hd, by rfl⟩
      simp [hnil] at this
    | false =>
      obtain ⟨sg, hsg, hhead⟩ := hi.read hb
      refine ⟨sg, hhead, ?_⟩
      apply precedes_of_filter Event.byRoutine (by rfl)
      rw [hi.routineEvents, hsg]
      simp [sigPart, precedesB]
  · intro hnone
    cases hb : beforeRead (exec env sched).gpc with
    | true =>
      rw [← shutdownCalls_filter, unread_routineEvents hi hb]
      rfl
    | false =>
      obtain ⟨sg, -, hhead⟩ := hi.read hb
      simp [hnone] at hhead

theorem C7_listen_fault_no_shutdown_witness :
    result (exec envListenFault schedTypical) = some (some ErrAddrInUse) :=
  (C7_listen_fault_no_shutdown envListenFault ErrAddrInUse schedTypical rfl
    (by decide)).2.1 (by decide)

theorem sim_init (env : Env) : Sim (init env) (init (firstOnly env)) := by
  simp [Sim, observe, init, firstOnly, beforeRead]

theorem afterListen_ne_setup (err : Error) : (afterListen err).1 ≠ .setup := by
  unfold afterListen; split <;> simp

theorem afterReceive_ne_setup (v : Error) : (afterReceive v).1 ≠ .setup := by
  unfold afterReceive; split <;> simp

set_option maxHeartbeats 1000000 in
theorem sim_stepD (env : Env) {a b : State} (act : Action) (h : Sim a b) :
    Sim (stepD env a act) (stepD (firstOnly env) b act) := by
  obtain ⟨mpc, gpc, quit, sig, pend, wg, ptasks, trace⟩ := a
  obtain ⟨mpc2, gpc2, quit2, sig2, pend2, wg2, ptasks2, trace2⟩ := b
  obtain ⟨hobs, hs, hq⟩ := h
  simp only [observe, Prod.mk.injEq] at hobs
  obtain ⟨h1, h2, h3, h4, h5, h6⟩ := hobs
  subst h1 h2 h3 h4 h5 h6
  simp only at hq hs
  cases act
  · cases mpc <;> cases gpc <;>
      simp_all [stepD, step, stepMain, firstOnly, Sim, observe, beforeRead,
        afterListen_ne_setup]
  · cases hsd : env.shutdownResult <;> by_cases hw : wg = 0 <;> cases gpc <;>
      cases quit <;> cases quit2 <;>
      simp_all [stepD, step, stepRoutine, firstOnly, Sim, observe, afterShutdown, beforeRead]
  · cases mpc <;> cases gpc <;>
      simp_all [stepD, step, stepHandoff, firstOnly, Sim, observe, beforeRead,
        afterReceive_ne_setup]
  · cases hr : registered gpc
    · cases gpc <;> simp_all [stepD, step, stepDeliver, Sim, observe, registered]
    · cases pend <;> cases pend2 <;> cases quit <;> cases quit2 <;> cases gpc <;>
        simp_all [stepD, step, stepDeliver, Sim, observe, beforeRead, registered]
  · cases ptasks with
    | nil => simp_all [stepD, step, stepTask, Sim, observe]
    | cons t rest =>
      by_cases hw : wg = 0 <;> cases t <;>
        simp_all [stepD, step, stepTask, Sim, observe]

theorem sim_run (env : Env) (sched : List Action) {a b : State} (h : Sim a b) :
    Sim (run env sched a) (run (firstOnly env) sched b) := by
  induction sched generalizing a b with
  | nil => exact h
  | cons act rest ih => exact ih (sim_stepD env act h)

theorem routineEvents_shutdownCalls (sig : Option Signal) (sd : Error) (g : RoutinePC) :
    shutdownCalls (sigPart sig ++ routineTail sd g) = [] ∨
    shutdownCalls (sigPart sig ++ routineTail sd g) = [shutdownTimeout] := by
  cases sig <;> cases sd <;> cases g <;>
    simp [shutdownCalls, sigPart, routineTail, errPart]

theorem routineEvents_signalsRead (sig : Option Signal) (sd : Error) (g : RoutinePC) :
    signalsRead (sigPart sig ++ routineTail sd g) = sig.toList := by
  cases sig <;> cases sd <;> cases g <;>
    simp [signalsRead, sigPart, routineTail, errPart]

/-- C8 (single shutdown, fixed budget): in every run, whatever signals are
delivered, `Shutdown` is called not at all or exactly once, with a timeout of
30 seconds; at most one signal is ever read from `quit` and it is the first
one delivered; and removing every signal after the first changes nothing in
what the two threads do: same program counters, same trace, same outcome. -/
theorem C8_single_shutdown (env : Env) (sched : List Action) :
    (shutdownCalls (exec env sched).trace = [] ∨
      shutdownCalls (exec env sched).trace = [30 * 1000000000]) ∧
    (signalsRead (exec env sched).trace).length ≤ 1 ∧
    (∀ sg ∈ signalsRead (exec env sched).trace, env.signals.head? = some sg) ∧
    observe (exec env sched) = observe (exec (firstOnly env) sched) ∧
    result (exec env sched) = result (exec (firstOnly env) sched) := by
  have hi := inv_exec env sched
  have hsim : Sim (exec env sched) (exec (firstOnly env) sched) :=
    sim_run env sched (sim_init env)
  have hread : signalsRead (exec env sched).trace = (exec env sched).sig.toList := by
    rw [← signalsRead_filter, hi.routineEvents, routineEvents_signalsRead]
  refine ⟨?_, ?_, ?_, hsim.1, ?_⟩
  · rw [← shutdownCalls_filter, hi.routineEvents]
    exact routineEvents_shutdownCalls _ _ _
  · rw [hread]
    cases (exec env sched).sig <;> simp
  · intro sg hsg
    rw [hread] at hsg
    cases hb : beforeRead (exec env sched).gpc with
    | true => simp [(hi.unread hb).1] at hsg
    | false =>
      obtain ⟨sg2, h2, hhead⟩ := hi.read hb
      simp [h2] at hsg
      rw [hsg, hhead]
  · have h := hsim.1
    simp only [observe, Prod.mk.injEq] at h
    simp [result, h.1]

/-- C9, as stated, fails: with one task registered on `app.wg` that never
completes and `Shutdown` returning `context.DeadlineExceeded`, the error is
handed over before `Wait` is called, and `serve` returns it while the goroutine
sits in `Wait`. -/
theorem C9_counterexample :
    envHungTaskFault.signals = [.SIGINT] ∧ envHungTaskFault.wg = 1 ∧
    envHungTaskFault.tasks = [] ∧
    (exec envHungTaskFault schedTypical).trace =
      [.log .startingServer, .sigRead .SIGINT, .log (.caughtSignal .SIGINT),
       .shutdownCall shutdownTimeout, .listenRet (some ErrServerClosed),
       .shutdownRet (some DeadlineExceeded), .handoff (some DeadlineExceeded),
       .ret (some DeadlineExceeded), .log .completingBackgroundTasks, .waitCall] ∧
    (exec envHungTaskFault schedTypical).gpc = .inWait ∧
    (exec envHungTaskFault schedTypical).wg = 1 ∧
    result (exec envHungTaskFault schedTypical) = some (some DeadlineExceeded) := by
  refine ⟨by decide, by decide, by decide, by decide, by decide, by decide, by decide⟩

/-- C9 (amended): when a termination signal is delivered, `ListenAndServe`
returns the closed sentinel, `Shutdown` returns nil and one task is registered
on `app.wg` that never completes, `serve` never returns; every run that has
come to rest has the caller blocked at the receive and the goroutine inside
`app.wg.Wait()`, called and not returned; and every run can be carried on to
that point. -/
theorem C9_hang (env : Env) (sched : List Action)
    (hsig : env.signals ≠ [])
    (hclosed : isServerClosed env.listenResult = true)
    (hsd : env.shutdownResult = none)
    (hwg : env.wg = 1) (htasks : env.tasks = []) :
    result (exec env sched) = none ∧
    (quiescent env (exec env sched) = true →
      (exec env sched).mpc = .receiving ∧ (exec env sched).gpc = .inWait ∧
      Event.waitCall ∈ (exec env sched).trace ∧
      Event.waitRet ∉ (exec env sched).trace) ∧
    ∃ more, quiescent env (exec env (sched ++ more)) = true ∧
      (exec env (sched ++ more)).gpc = .inWait := by
  have hdone : ∀ sch, (exec env sch).gpc ≠ .done := by
    intro sch hg
    have := (inv_exec env sch).drained (by simp [hg, afterWait]) htasks
    omega
  have key : ∀ sch, quiescent env (exec env sch) = true →
      (exec env sch).mpc = .receiving ∧ (exec env sch).gpc = .inWait := by
    intro sch hq
    rcases quiescent_closed (inv_exec env sch) hq hclosed hsig with
      ⟨e, he, -⟩ | ⟨-, hg, -⟩ | ⟨-, hg, -, hm⟩
    · simp [hsd] at he
    · exact absurd hg (hdone sch)
    · exact ⟨hm, hg⟩
  have hi := inv_exec env sched
  refine ⟨?_, ?_, ?_⟩
  · cases hr : result (exec env sched) with
    | none => rfl
    | some r =>
      exfalso
      rcases result_cases hi hr with ⟨hc, -, -⟩ | ⟨-, -, hh⟩
      · simp [hclosed] at hc
      · rw [hsd] at hh
        apply hdone sched
        cases hg : (exec env sched).gpc <;> simp [hg, handedOff] at hh
        rfl
  · intro hq
    obtain ⟨hm, hg⟩ := key sched hq
    refine ⟨hm, hg, ?_, ?_⟩
    · apply mem_of_mem_routineEvents hi
      rw [hg, hsd]
      simp [routineTail, errPart]
    · intro hmem
      have := mem_routineEvents hi (by rfl) hmem
      rw [hg, hsd] at this
      cases hsg : (exec env sched).sig <;> simp [hsg, sigPart, routineTail, errPart] at this
  · obtain ⟨more, hmore⟩ := exists_complete env (exec env sched)
    rw [← exec_append] at hmore
    exact ⟨more, hmore, (key _ hmore).2⟩

theorem C9_hang_witness :
    result (exec envHungTask schedTypical) = none ∧
    (exec envHungTask schedTypical).mpc = .receiving ∧
    (exec envHungTask schedTypical).gpc = .inWait :=
  have h := C9_hang envHungTask schedTypical (by decide) (by decide) rfl rfl rfl
  ⟨h.1, (h.2.1 (by decide)).1, (h.2.1 (by decide)).2.1⟩

/-- C10 (nil from `ListenAndServe`): `errors.Is(nil, http.ErrServerClosed)` is
false, and an error matches the sentinel exactly when the sentinel is in its
unwrap chain; so when `ListenAndServe` returns nil, `serve` can only return
nil and every run that has come to rest has returned nil; the caller does so
as soon as `ListenAndServe` returns, whatever the goroutine has done, and by
its own three steps in a run in which `Shutdown` and `Wait` are never called; its events are exactly the start log, the return of `ListenAndServe`
and the return of nil; and nothing is ever received from `shutdownError`. -/
theorem C10_nil_listen (env : Env) (sched : List Action)
    (hls : env.listenResult = none) :
    isServerClosed none = false ∧
    (∀ e, isServerClosed (some e) = true ↔ ErrServerClosed ∈ e.chain) ∧
    (∀ r, result (exec env sched) = some r → r = none) ∧
    (quiescent env (exec env sched) = true → result (exec env sched) = some none) ∧
    ((exec env sched).mpc = .listening → result (exec env (sched ++ [.main])) = some none) ∧
    result (exec env schedMainOnly) = some none ∧
    (exec env schedMainOnly).trace = [.log .startingServer, .listenRet none, .ret none] ∧
    (result (exec env sched) = some none →
      (exec env sched).trace.filter Event.byMain =
        [.log .startingServer, .listenRet none, .ret none]) ∧
    (∀ v, Event.handoff v ∉ (exec env sched).trace) := by
  have hn : isServerClosed none = false := by decide
  have hc : isServerClosed env.listenResult = false := by rw [hls]; exact hn
  have hi := inv_exec env sched
  refine ⟨hn, ?_, ?_, ?_, ?_, ?_, ?_, ?_, no_handoff_of_not_closed hi hc⟩
  · intro e
    simp [isServerClosed, errorsIs, is_iff_mem_chain]
  · intro r hr
    rcases result_cases hi hr with ⟨-, h, -⟩ | ⟨h, -, -⟩
    · rw [h, hls]
    · simp [hc] at h
  · intro hq
    rw [quiescent_not_closed hi hq hc, hls]
  · intro hm
    rw [exec_append, listen_return env hm hc, hls]
  · rw [exec_mainOnly env hc]
    simp [result, hls]
  · rw [exec_mainOnly env hc]
    simp [init, hls]
  · intro hr
    rw [hi.mainEvents]
    cases hm : (exec env sched).mpc <;> simp [result, hm] at hr
    subst hr
    simp [mainHist, afterListen, hls, hn]

theorem C10_nil_listen_witness :
    result (exec envNilListen schedMainOnly) = some none ∧
    (exec envNilListen schedMainOnly).trace =
      [.log .startingServer, .listenRet none, .ret none] :=
  have h := C10_nil_listen envNilListen schedMainOnly rfl
  ⟨h.2.2.2.2.2.1, h.2.2.2.2.2.2.1⟩

end Greenlight
